import Mathlib

/-!
Shallow embedding of `src/scripts/bedrock_list_models_region.py`.

Strings are modelled as `List Char` (`Str`); Python's string operations
(`split`, `join`, `startswith`, slicing, `upper`, `title`, `ljust` via
format specifiers) are implemented below, faithful to Python semantics on
the ASCII data the script handles.  The two AWS calls are modelled as
`Except`-valued inputs (success with the returned collection, or failure
with an exception message), and the procedure's observable behaviour is an
`Output`: the list of strings printed to stdout, the list printed to
stderr, and the process exit code.  Debug mode only adds diagnostic lines
on stderr and is not modelled; all claims concern the non-debug behaviour.
-/

/-- Strings as lists of characters (Python `str`, code-point sequence). -/
abbrev Str := List Char

/-- Python `s.split(sep)` for a single-character separator: splits on every
occurrence, keeping empty pieces; `"".split(sep) == [""]`. -/
def pySplit (sep : Char) : Str → List Str
  | [] => [[]]
  | c :: cs =>
    let rest := pySplit sep cs
    if c = sep then [] :: rest
    else
      match rest with
      | [] => [[c]]
      | s :: ss => (c :: s) :: ss

/-- Python `sep.join(parts)`. -/
def pyJoin (sep : Str) : List Str → Str
  | [] => []
  | [s] => s
  | s :: ss => s ++ sep ++ pyJoin sep ss

/-- Python `s.upper()` (ASCII). -/
def pyUpper (s : Str) : Str := s.map Char.toUpper

/-- Helper for `pyTitle`: the flag records whether the previous character
was a cased (alphabetic) character. -/
def pyTitleGo : Bool → Str → Str
  | _, [] => []
  | prevAlpha, c :: cs =>
    (if c.isAlpha then (if prevAlpha then c.toLower else c.toUpper) else c) ::
      pyTitleGo c.isAlpha cs

/-- Python `s.title()` (ASCII): the first letter of each alphabetic run is
upper-cased, the following letters lower-cased. -/
def pyTitle (s : Str) : Str := pyTitleGo false s

/-- Python format specifier `:<w`: left-justify, pad with spaces to width
`w`, never truncate. -/
def ljust (s : Str) (w : Nat) : Str := s ++ List.replicate (w - s.length) ' '

/-- Insert into a Python dict modelled as an insertion-ordered association
list: `d[k] = v` overwrites the value in place when the key is present,
otherwise appends the new pair at the end. -/
def dictInsert (k v : Str) (d : List (Str × Str)) : List (Str × Str) :=
  if d.any (fun kv => kv.1 == k) then
    d.map (fun kv => if kv.1 == k then (k, v) else kv)
  else d ++ [(k, v)]

/-- Python `d.get(k, dflt)`. -/
def dictGetD (d : List (Str × Str)) (k : Str) (dflt : Str) : Str :=
  match d.find? (fun kv => kv.1 == k) with
  | some kv => kv.2
  | none => dflt

/-- Python `k in d` (dict key membership). -/
def dictContains (d : List (Str × Str)) (k : Str) : Bool :=
  d.any (fun kv => kv.1 == k)

/-- Record for an entry of the native model catalog (`modelSummaries`),
with the script's `.get` defaults for absent keys folded into total
fields. -/
structure ModelSummary where
  modelId : Str
  providerName : Str
  inputModalities : List Str
  outputModalities : List Str
deriving DecidableEq, Repr

/-- Record for an entry of `inferenceProfileSummaries`. -/
structure InferenceProfileSummary where
  inferenceProfileId : Str
deriving DecidableEq, Repr

/-- Observable behaviour of one invocation: the strings passed to `print`
on stdout, those on stderr, and the process exit code. -/
structure Output where
  stdout : List Str
  stderr : List Str
  exitCode : Nat
deriving DecidableEq, Repr

/-- Embedding of `get_base_model_id`: split on `:`; when there are at
least two parts and the last one is in the fixed suffix list, rejoin all
but the last with `:`; otherwise return the input unchanged. -/
def suffixList : List Str :=
  ["28k", "200k", "8k", "48k", "12k", "512", "24k", "300k", "128k", "1000k", "mm"].map
    String.toList

def get_base_model_id (model_id : Str) : Str :=
  let parts := pySplit ':' model_id
  if 1 < parts.length then
    if parts.getLastD [] ∈ suffixList then pyJoin [':'] parts.dropLast
    else model_id
  else model_id

/-- The routing prefixes checked, in source order. -/
def routingPrefixes : List Str :=
  ["us.", "eu.", "jp.", "au.", "global."].map String.toList

/-- Helper for `extract_cri_info`: try each candidate in order. -/
def extractGo : List Str → Str → Option (Str × Str)
  | [], _ => none
  | p :: ps, pid =>
    if p.isPrefixOf pid then some (pyUpper p.dropLast, pid.drop p.length)
    else extractGo ps pid

/-- Embedding of `extract_cri_info`: `some (criType, baseId)` on the first
matching routing prefix, `none` for the Python `(None, None)` sentinel. -/
def extract_cri_info (profile_id : Str) : Option (Str × Str) :=
  extractGo routingPrefixes profile_id

/-- One iteration of the profile loop: record `cri_models[base_id] =
cri_type` when the extractor matched and both components are truthy
(non-`None` and non-empty, Python `if cri_type and base_id`). -/
def criStep (d : List (Str × Str)) (p : InferenceProfileSummary) : List (Str × Str) :=
  match extract_cri_info p.inferenceProfileId with
  | some (cri_type, base_id) =>
    if cri_type ≠ [] ∧ base_id ≠ [] then dictInsert base_id cri_type d else d
  | none => d

/-- The `cri_models` dict built from the inference-profile summaries. -/
def buildCriModels (profiles : List InferenceProfileSummary) : List (Str × Str) :=
  profiles.foldl criStep []

/-- The synthesized dict appended for a CRI-only model id: provider is the
first `.`-segment title-cased, modality lists empty. -/
def synthesize (mid : Str) : ModelSummary :=
  { modelId := mid
    providerName := pyTitle ((pySplit '.' mid).headD [])
    inputModalities := []
    outputModalities := [] }

/-- The `all_models` list: native models followed by a synthesized entry
for each CRI key absent from the native-id set, in dict order. -/
def combineModels (native_models : List ModelSummary) (cri_models : List (Str × Str)) :
    List ModelSummary :=
  native_models ++
    (cri_models.filter
      (fun kv => !((native_models.map (fun m => m.modelId)).contains kv.1))).map
      (fun kv => synthesize kv.1)

/-- Python string `<=` on code points (`toNat` determines the character). -/
def strLe : Str → Str → Bool
  | [], _ => true
  | _ :: _, [] => false
  | a :: as, b :: bs =>
    if a.toNat = b.toNat then strLe as bs else decide (a.toNat < b.toNat)

/-- The sort key comparison `(m.providerName, m.modelId)` as a tuple
order. -/
def keyLe (m1 m2 : ModelSummary) : Bool :=
  if m1.providerName = m2.providerName then strLe m1.modelId m2.modelId
  else strLe m1.providerName m2.providerName

/-- Insert an element into a sorted list before the first element it
compares `le` to; keeps equal-key elements in their original order. -/
def insertSorted (le : α → α → Bool) (a : α) : List α → List α
  | [] => [a]
  | b :: bs => if le a b then a :: b :: bs else b :: insertSorted le a bs

/-- Stable insertion sort.  Python's `list.sort` is a stable sort by the
key tuple, and any two stable sorts under the same total preorder agree,
so this is extensionally the sort the script performs. -/
def insertionSort (le : α → α → Bool) : List α → List α
  | [] => []
  | a :: as => insertSorted le a (insertionSort le as)

/-- The `models.sort(key=...)` step. -/
def sortModels (models : List ModelSummary) : List ModelSummary :=
  insertionSort keyLe models

/-- Message printed to stderr by the top-level exception handler. -/
def errorLine (e : Str) : Str := "Error listing models: ".toList ++ e

/-- Early-return message of the cross-region-only branch. -/
def noCriLine (region : Str) : Str :=
  "No models with Cross-Region Inference available in region: ".toList ++ region

/-- Early-return message when the listed collection is empty. -/
def noModelsLine (region : Str) : Str :=
  "No models found in region: ".toList ++ region

/-- Table title in the unfiltered branch. -/
def fmTitle (region : Str) : Str :=
  "Foundation Models in Amazon Bedrock - Region: ".toList ++ region

/-- Table title in the cross-region-only branch. -/
def criTitle (region : Str) : Str :=
  "Cross-Region Inference Models in Amazon Bedrock - Region: ".toList ++ region

/-- Header row of the table, fixed-width left-justified columns. -/
def headerRow : Str :=
  ljust "Model ID".toList 50 ++ [' '] ++ ljust "Provider".toList 15 ++ [' '] ++
    ljust "CRI Type".toList 12 ++ [' '] ++ ljust "Input".toList 8 ++ [' '] ++
    ljust "Output".toList 8

/-- One table row for a model: CRI type looked up in `cri_models` with
default `"-"`, modality lists joined with `", "`. -/
def modelRow (cri_models : List (Str × Str)) (m : ModelSummary) : Str :=
  ljust m.modelId 50 ++ [' '] ++ ljust m.providerName 15 ++ [' '] ++
    ljust (dictGetD cri_models m.modelId "-".toList) 12 ++ [' '] ++
    ljust (pyJoin ", ".toList m.inputModalities) 8 ++ [' '] ++
    ljust (pyJoin ", ".toList m.outputModalities) 8

/-- Closing line `Total models: <count>` (the printed string ends with a
newline character of its own). -/
def totalLine (n : Nat) : Str := "Total models: ".toList ++ Nat.toDigits 10 n ++ ['\n']

/-- The sort-and-print tail of the procedure, applied to a non-empty
model list. -/
def renderTable (title : Str) (models : List ModelSummary)
    (cri_models : List (Str × Str)) : Output :=
  let sorted := sortModels models
  { stdout :=
      ('\n' :: title) :: List.replicate 130 '=' :: headerRow ::
        List.replicate 130 '-' ::
        (sorted.map (modelRow cri_models) ++
          [List.replicate 130 '-', totalLine sorted.length])
    stderr := []
    exitCode := 0 }

/-- The shared `if not models` check followed by rendering, reached by
both branches after the cross-region-only early return. -/
def emptyCheckAndRender (region title : Str) (models : List ModelSummary)
    (cri_models : List (Str × Str)) : Output :=
  if models.isEmpty then
    { stdout := [noModelsLine region], stderr := [], exitCode := 0 }
  else renderTable title models cri_models

/-- Embedding of `list_bedrock_models` (non-debug).  The two API calls are
inputs: `nativeCall` is the result of `list_foundation_models` (its
`modelSummaries`), `profilesCall` of `list_inference_profiles` (its
`inferenceProfileSummaries`); `.error e` is a raised exception with
message `e`.  A `nativeCall` failure reaches the top-level handler:
one stderr line and `sys.exit(1)`.  A `profilesCall` failure is swallowed,
leaving `cri_models` empty. -/
def list_bedrock_models (region : Str) (show_cross_region_only : Bool)
    (nativeCall : Except Str (List ModelSummary))
    (profilesCall : Except Str (List InferenceProfileSummary)) : Output :=
  match nativeCall with
  | .error e => { stdout := [], stderr := [errorLine e], exitCode := 1 }
  | .ok native_models =>
    let cri_models :=
      match profilesCall with
      | .ok profiles => buildCriModels profiles
      | .error _ => []
    let all_models := combineModels native_models cri_models
    if show_cross_region_only then
      let models := all_models.filter (fun m => dictContains cri_models m.modelId)
      if models.isEmpty then
        { stdout := [noCriLine region], stderr := [], exitCode := 0 }
      else emptyCheckAndRender region (criTitle region) models cri_models
    else emptyCheckAndRender region (fmTitle region) all_models cri_models

example : get_base_model_id "anthropic.claude:200k".toList = "anthropic.claude".toList := by
  decide

example : get_base_model_id "a:8k:8k".toList = "a:8k".toList := by decide

example : get_base_model_id "a:8k".toList = "a".toList := by decide

example : extract_cri_info "us.b.bar".toList = some ("US".toList, "b.bar".toList) := by
  decide

example : extract_cri_info "mistral.x".toList = none := by decide

example : extract_cri_info "us.".toList = some ("US".toList, []) := by decide

example :
    buildCriModels [⟨"us.b.bar".toList⟩] = [("b.bar".toList, "US".toList)] := by decide

example :
    combineModels [⟨"a.foo".toList, "A".toList, [], []⟩]
      (buildCriModels [⟨"us.b.bar".toList⟩]) =
      [⟨"a.foo".toList, "A".toList, [], []⟩,
       ⟨"b.bar".toList, "B".toList, [], []⟩] := by decide

/-! Helper lemmas about the Python string operations. -/

theorem pySplit_ne_nil (sep : Char) : ∀ s : Str, pySplit sep s ≠ []
  | [] => by simp [pySplit]
  | c :: cs => by
    simp only [pySplit]
    split
    · simp
    · split <;> simp

theorem pySplit_append_cons (sep : Char) (u : Str) : ∀ t : Str,
    pySplit sep (t ++ sep :: u) = pySplit sep t ++ pySplit sep u
  | [] => by simp [pySplit]
  | c :: t' => by
    have ih := pySplit_append_cons sep u t'
    rcases hsplit : pySplit sep t' with _ | ⟨s, ss⟩
    · exact absurd hsplit (pySplit_ne_nil sep t')
    · by_cases hc : c = sep
      · subst hc
        simp [pySplit, ih, hsplit]
      · simp [pySplit, hc, ih, hsplit]

theorem pyJoin_pySplit (sep : Char) : ∀ s : Str, pyJoin [sep] (pySplit sep s) = s
  | [] => rfl
  | c :: cs => by
    have ih := pyJoin_pySplit sep cs
    rcases hsplit : pySplit sep cs with _ | ⟨s, ss⟩
    · exact absurd hsplit (pySplit_ne_nil sep cs)
    · rw [hsplit] at ih
      by_cases hc : c = sep
      · subst hc
        rcases ss with _ | ⟨s2, ss2⟩ <;>
          simp_all [pySplit, pyJoin, hsplit]
      · rcases ss with _ | ⟨s2, ss2⟩ <;>
          simp_all [pySplit, pyJoin, hsplit]

theorem pySplit_cons_sep (sep : Char) (cs : Str) :
    pySplit sep (sep :: cs) = [] :: pySplit sep cs := by
  simp [pySplit]

theorem pySplit_cons_ne (sep c : Char) (cs : Str) (s : Str) (ss : List Str)
    (hc : ¬ c = sep) (h : pySplit sep cs = s :: ss) :
    pySplit sep (c :: cs) = (c :: s) :: ss := by
  simp [pySplit, hc, h]

theorem sep_not_mem_pySplit (sep : Char) : ∀ s : Str, ∀ l ∈ pySplit sep s, sep ∉ l
  | [] => by simp [pySplit]
  | c :: cs => by
    have ih := sep_not_mem_pySplit sep cs
    rcases hsplit : pySplit sep cs with _ | ⟨s, ss⟩
    · exact absurd hsplit (pySplit_ne_nil sep cs)
    · rw [hsplit] at ih
      intro l hl
      by_cases hc : c = sep
      · subst hc
        rw [pySplit_cons_sep, hsplit] at hl
        rcases List.mem_cons.mp hl with hl | hl
        · simp [hl]
        · exact ih l hl
      · rw [pySplit_cons_ne sep c cs s ss hc hsplit] at hl
        rcases List.mem_cons.mp hl with hl | hl
        · subst hl
          intro hmem
          rcases List.mem_cons.mp hmem with hmem | hmem
          · exact hc hmem.symm
          · exact ih s (by simp) hmem
        · exact ih l (by simp [hl])

theorem pySplit_eq_single (sep : Char) : ∀ s : Str, sep ∉ s → pySplit sep s = [s]
  | [] => by simp [pySplit]
  | c :: cs => by
    intro h
    have hc : ¬ c = sep := fun hh => h (by simp [hh])
    have ih := pySplit_eq_single sep cs (fun hh => h (by simp [hh]))
    simp [pySplit, hc, ih]

theorem pySplit_pyJoin (sep : Char) : ∀ ls : List Str,
    (∀ l ∈ ls, sep ∉ l) → ls ≠ [] → pySplit sep (pyJoin [sep] ls) = ls
  | [], _, hne => absurd rfl hne
  | [x], h, _ => by
    simp only [pyJoin]
    exact pySplit_eq_single sep x (h x (by simp))
  | x :: y :: ys, h, _ => by
    have ih := pySplit_pyJoin sep (y :: ys) (fun l hl => h l (by simp [hl])) (by simp)
    have hx : sep ∉ x := h x (by simp)
    calc pySplit sep (pyJoin [sep] (x :: y :: ys))
        = pySplit sep (x ++ sep :: pyJoin [sep] (y :: ys)) := by simp [pyJoin]
      _ = pySplit sep x ++ pySplit sep (pyJoin [sep] (y :: ys)) := pySplit_append_cons ..
      _ = [x] ++ (y :: ys) := by rw [pySplit_eq_single sep x hx, ih]
      _ = x :: y :: ys := rfl

/-! Helper lemmas about `get_base_model_id`. -/

theorem colon_not_mem_suffix : ∀ suf ∈ suffixList, ':' ∉ suf := by decide

theorem gbm_strip (t suf : Str) (h : suf ∈ suffixList) :
    get_base_model_id (t ++ ':' :: suf) = t := by
  have hc : ':' ∉ suf := colon_not_mem_suffix suf h
  have hsplit : pySplit ':' (t ++ ':' :: suf) = pySplit ':' t ++ [suf] := by
    rw [pySplit_append_cons, pySplit_eq_single ':' suf hc]
  rcases hne : pySplit ':' t with _ | ⟨s, ss⟩
  · exact absurd hne (pySplit_ne_nil ':' t)
  · rw [hne] at hsplit
    have hlen : 1 < (pySplit ':' (t ++ ':' :: suf)).length := by
      rw [hsplit]; simp
    have hlast : (pySplit ':' (t ++ ':' :: suf)).getLastD [] = suf := by
      rw [hsplit]
      exact List.getLastD_concat ..
    have hdrop : (pySplit ':' (t ++ ':' :: suf)).dropLast = s :: ss := by
      rw [hsplit]
      exact List.dropLast_concat ..
    rw [get_base_model_id]
    simp only [if_pos hlen, hlast, if_pos h, hdrop]
    rw [← hne, pyJoin_pySplit]

theorem gbm_unchanged_no_colon (s : Str) (h : ':' ∉ s) : get_base_model_id s = s := by
  rw [get_base_model_id, pySplit_eq_single ':' s h]
  simp

theorem gbm_unchanged_last_not_mem (s : Str)
    (h : (pySplit ':' s).getLastD [] ∉ suffixList) : get_base_model_id s = s := by
  rw [get_base_model_id]
  simp only [if_neg h, ite_self]

theorem gbm_eq_strip (s : Str) (h1 : 1 < (pySplit ':' s).length)
    (h2 : (pySplit ':' s).getLastD [] ∈ suffixList) :
    get_base_model_id s = pyJoin [':'] (pySplit ':' s).dropLast := by
  rw [get_base_model_id]
  simp only [if_pos h1, if_pos h2]

theorem gbm_unchanged_short (s : Str) (h : ¬ 1 < (pySplit ':' s).length) :
    get_base_model_id s = s := by
  rw [get_base_model_id]
  simp only [if_neg h]

/-- C5: for every model identifier, the base-model-id normalizer removes a
trailing `:<suffix>` segment exactly when the last `:`-delimited segment
is one of the eleven enumerated context-window suffixes, and returns the
identifier unchanged when there is no `:`-separated suffix or the last
segment is not in the set. -/
theorem C5_base_model_id_normalizer :
    (∀ t suf : Str, suf ∈ suffixList → get_base_model_id (t ++ ':' :: suf) = t) ∧
    (∀ s : Str, ':' ∉ s → get_base_model_id s = s) ∧
    (∀ s : Str, (pySplit ':' s).getLastD [] ∉ suffixList → get_base_model_id s = s) :=
  ⟨gbm_strip, gbm_unchanged_no_colon, gbm_unchanged_last_not_mem⟩

/-- Witness for C5 at concrete inputs: `"mistral.x:28k"` is stripped to
`"mistral.x"`, and `"ab"` (no colon) and `"a:16k"` (suffix not in the
set) are unchanged. -/
theorem C5_witness :
    get_base_model_id ("mistral.x".toList ++ ':' :: "28k".toList) = "mistral.x".toList ∧
    get_base_model_id "ab".toList = "ab".toList ∧
    get_base_model_id "a:16k".toList = "a:16k".toList :=
  ⟨C5_base_model_id_normalizer.1 "mistral.x".toList "28k".toList (by decide),
   C5_base_model_id_normalizer.2.1 "ab".toList (by decide),
   C5_base_model_id_normalizer.2.2 "a:16k".toList (by decide)⟩

/-- Counterexample to C6 as stated: on `"a:8k:8k"` one application of the
normalizer yields `"a:8k"`, and a second application strips again to
`"a"`, so normalizing twice differs from normalizing once. -/
theorem C6_counterexample :
    get_base_model_id (get_base_model_id "a:8k:8k".toList) ≠
      get_base_model_id "a:8k:8k".toList := by decide

/-- C6 (amended): the base-model-id normalizer is idempotent on every
identifier whose second-to-last `:`-segment is not itself in the
enumerated suffix set (or that has at most two `:`-segments); in general
a second application can strip a further suffix. -/
theorem C6_idempotent_amended (s : Str)
    (h : (pySplit ':' s).dropLast.getLastD [] ∉ suffixList ∨
      (pySplit ':' s).length ≤ 2) :
    get_base_model_id (get_base_model_id s) = get_base_model_id s := by
  by_cases h1 : 1 < (pySplit ':' s).length
  · by_cases h2 : (pySplit ':' s).getLastD [] ∈ suffixList
    · have hstrip := gbm_eq_strip s h1 h2
      have hq : pySplit ':' (pyJoin [':'] (pySplit ':' s).dropLast) =
          (pySplit ':' s).dropLast := by
        apply pySplit_pyJoin
        · intro l hl
          exact sep_not_mem_pySplit ':' s l (List.dropLast_sublist _ |>.mem hl)
        · intro hnil
          have := congrArg List.length hnil
          simp [List.length_dropLast] at this
          omega
      rcases h with h | h
      · rw [hstrip]
        apply gbm_unchanged_last_not_mem
        rw [hq]
        exact h
      · have hlen2 : (pySplit ':' s).length = 2 := by omega
        rw [hstrip]
        apply gbm_unchanged_short
        rw [hq]
        simp [List.length_dropLast, hlen2]
    · rw [gbm_unchanged_last_not_mem s h2, gbm_unchanged_last_not_mem s h2]
  · rw [gbm_unchanged_short s h1, gbm_unchanged_short s h1]

/-- Witness for C6 (amended) at `"anthropic.claude:200k"`: its
second-to-last segment `"anthropic.claude"` is not a suffix, and indeed
normalizing twice equals normalizing once. -/
theorem C6_witness :
    get_base_model_id (get_base_model_id "anthropic.claude:200k".toList) =
      get_base_model_id "anthropic.claude:200k".toList :=
  C6_idempotent_amended "anthropic.claude:200k".toList (by decide)

/-- C3: for every profile id starting with one of the routing prefixes
`us. | eu. | jp. | au. | global.`, the extractor returns the upper-cased
prefix without its dot together with the exact remainder after the
prefix, and for every other string it returns the no-match sentinel
(Python `(None, None)`, modelled as `none`). -/
theorem C3_extractor (pid : Str) :
    (∀ p : Str, p ∈ routingPrefixes → p.isPrefixOf pid = true →
      extract_cri_info pid = some (pyUpper p.dropLast, pid.drop p.length)) ∧
    ((∀ p ∈ routingPrefixes, p.isPrefixOf pid = false) →
      extract_cri_info pid = none) := by
  have e1 : "us.".toList = ['u', 's', '.'] := rfl
  have e2 : "eu.".toList = ['e', 'u', '.'] := rfl
  have e3 : "jp.".toList = ['j', 'p', '.'] := rfl
  have e4 : "au.".toList = ['a', 'u', '.'] := rfl
  have e5 : "global.".toList = ['g', 'l', 'o', 'b', 'a', 'l', '.'] := rfl
  constructor
  · intro p hp hpre
    rw [List.isPrefixOf_iff_prefix] at hpre
    obtain ⟨t, ht⟩ := hpre
    subst ht
    simp only [routingPrefixes, List.map, List.mem_cons, List.not_mem_nil,
      or_false] at hp
    rcases hp with rfl | rfl | rfl | rfl | rfl <;>
      simp [extract_cri_info, extractGo, routingPrefixes, e1, e2, e3, e4, e5,
        List.isPrefixOf]
  · intro h
    have h1 := h "us.".toList (by decide)
    have h2 := h "eu.".toList (by decide)
    have h3 := h "jp.".toList (by decide)
    have h4 := h "au.".toList (by decide)
    have h5 := h "global.".toList (by decide)
    rw [e1] at h1
    rw [e2] at h2
    rw [e3] at h3
    rw [e4] at h4
    rw [e5] at h5
    simp only [Bool.eq_false_iff, ne_eq, List.isPrefixOf_iff_prefix] at h1 h2 h3 h4 h5
    simp [extract_cri_info, extractGo, routingPrefixes, e1, e2, e3, e4, e5,
      h1, h2, h3, h4, h5]

/-- Witness for C3 at concrete inputs: `"us.b.bar"` matches the `us.`
prefix, and `"mistral.x"` matches none. -/
theorem C3_witness :
    extract_cri_info "us.b.bar".toList =
      some (pyUpper "us.".toList.dropLast,
        "us.b.bar".toList.drop "us.".toList.length) ∧
    extract_cri_info "mistral.x".toList = none :=
  ⟨(C3_extractor "us.b.bar".toList).1 "us.".toList (by decide) (by decide),
   (C3_extractor "mistral.x".toList).2 (by decide)⟩

/-! Helper lemmas about the `cri_models` dict. -/

theorem mem_dictInsert (k v : Str) (d : List (Str × Str)) (kv : Str × Str)
    (h : kv ∈ dictInsert k v d) : kv = (k, v) ∨ kv ∈ d := by
  rw [dictInsert] at h
  split at h
  · rcases List.mem_map.mp h with ⟨x, hx, hfx⟩
    by_cases hxk : (x.1 == k) = true
    · left
      rw [← hfx]
      simp [hxk]
    · right
      rw [← hfx]
      simp only [hxk, if_neg]
      simpa using hx
  · rcases List.mem_append.mp h with h | h
    · right
      exact h
    · left
      simpa using h

theorem criStep_keys_ne_nil (d : List (Str × Str)) (p : InferenceProfileSummary)
    (h : ∀ kv ∈ d, kv.1 ≠ []) : ∀ kv ∈ criStep d p, kv.1 ≠ [] := by
  intro kv hkv
  rcases hext : extract_cri_info p.inferenceProfileId with _ | ⟨ct, bid⟩
  · simp only [criStep, hext] at hkv
    exact h kv hkv
  · simp only [criStep, hext] at hkv
    by_cases hcond : ct ≠ [] ∧ bid ≠ []
    · rw [if_pos hcond] at hkv
      rcases mem_dictInsert bid ct d kv hkv with rfl | hm
      · exact hcond.2
      · exact h kv hm
    · rw [if_neg hcond] at hkv
      exact h kv hkv

theorem foldl_criStep_keys_ne_nil : ∀ (profiles : List InferenceProfileSummary)
    (d : List (Str × Str)), (∀ kv ∈ d, kv.1 ≠ []) →
    ∀ kv ∈ profiles.foldl criStep d, kv.1 ≠ []
  | [], d, h => by simpa using h
  | p :: ps, d, h => by
    rw [List.foldl_cons]
    exact foldl_criStep_keys_ne_nil ps (criStep d p) (criStep_keys_ne_nil d p h)

/-- C10: the CRI mapping never contains the empty string as a key, because
an entry is recorded only when both the extracted CRI type and base id are
truthy; and a bare routing prefix such as `"us."` does extract an empty
base id. -/
theorem C10_no_empty_key :
    (∀ (profiles : List InferenceProfileSummary) (kv : Str × Str),
      kv ∈ buildCriModels profiles → kv.1 ≠ []) ∧
    extract_cri_info "us.".toList = some ("US".toList, []) :=
  ⟨fun profiles kv h => foldl_criStep_keys_ne_nil profiles [] (by simp) kv h,
   by decide⟩

/-- Witness for C10: the profile list `["us.x"]` yields the mapping entry
`("x", "US")`, whose key is non-empty. -/
theorem C10_witness : ("x".toList, "US".toList).1 ≠ ([] : Str) :=
  C10_no_empty_key.1 [⟨"us.x".toList⟩] ("x".toList, "US".toList) (by decide)

theorem keys_dictInsert (k v : Str) (d : List (Str × Str)) :
    (dictInsert k v d).map (fun kv => kv.1) =
      if d.any (fun kv => kv.1 == k) then d.map (fun kv => kv.1)
      else d.map (fun kv => kv.1) ++ [k] := by
  rw [dictInsert]
  split
  · rw [List.map_map]
    apply List.map_congr_left
    intro x hx
    by_cases hxk : (x.1 == k) = true
    · simp only [Function.comp, hxk, if_pos]
      exact (eq_of_beq hxk).symm
    · simp [Function.comp, hxk]
  · simp

theorem keys_nodup_dictInsert (k v : Str) (d : List (Str × Str))
    (h : (d.map (fun kv => kv.1)).Nodup) :
    ((dictInsert k v d).map (fun kv => kv.1)).Nodup := by
  rw [keys_dictInsert]
  split
  · exact h
  · next hany =>
    rw [List.nodup_append]
    refine ⟨h, List.nodup_singleton k, ?_⟩
    intro x hx hx2
    rcases List.mem_singleton.mp hx2 with rfl
    rcases List.mem_map.mp hx with ⟨y, hy, hyk⟩
    exact hany (List.any_eq_true.mpr ⟨y, hy, by simp [hyk]⟩)

theorem criStep_keys_nodup (d : List (Str × Str)) (p : InferenceProfileSummary)
    (h : (d.map (fun kv => kv.1)).Nodup) :
    ((criStep d p).map (fun kv => kv.1)).Nodup := by
  rcases hext : extract_cri_info p.inferenceProfileId with _ | ⟨ct, bid⟩
  · simp only [criStep, hext]
    exact h
  · simp only [criStep, hext]
    by_cases hcond : ct ≠ [] ∧ bid ≠ []
    · rw [if_pos hcond]
      exact keys_nodup_dictInsert bid ct d h
    · rw [if_neg hcond]
      exact h

theorem foldl_criStep_keys_nodup : ∀ (profiles : List InferenceProfileSummary)
    (d : List (Str × Str)), (d.map (fun kv => kv.1)).Nodup →
    ((profiles.foldl criStep d).map (fun kv => kv.1)).Nodup
  | [], _, h => h
  | p :: ps, d, h => by
    rw [List.foldl_cons]
    exact foldl_criStep_keys_nodup ps (criStep d p) (criStep_keys_nodup d p h)

theorem buildCriModels_keys_nodup (profiles : List InferenceProfileSummary) :
    ((buildCriModels profiles).map (fun kv => kv.1)).Nodup :=
  foldl_criStep_keys_nodup profiles [] (by simp)

theorem mem_iff_contains (l : List Str) (a : Str) : l.contains a = true ↔ a ∈ l := by
  rw [List.contains_iff_exists_mem_beq]
  simp

theorem contains_false_iff (l : List Str) (a : Str) : l.contains a = false ↔ a ∉ l := by
  constructor
  · intro hf hm
    rw [(mem_iff_contains l a).mpr hm] at hf
    simp at hf
  · intro hm
    cases hc : l.contains a
    · rfl
    · exact absurd ((mem_iff_contains l a).mp hc) hm

/-- C1 (amended): provided the native model list itself has pairwise
distinct `modelId`s, every entry of the combined list has a unique
`modelId`: native models take precedence and a CRI-only synthetic entry
is appended only when its base id is absent from the native-id set. -/
theorem C1_unique_ids_amended (native_models : List ModelSummary)
    (profiles : List InferenceProfileSummary)
    (h : (native_models.map (fun m => m.modelId)).Nodup) :
    ((combineModels native_models (buildCriModels profiles)).map
        (fun m => m.modelId)).Nodup ∧
    (∀ m ∈ combineModels native_models (buildCriModels profiles),
      m ∉ native_models →
        m.modelId ∉ native_models.map (fun m' => m'.modelId)) := by
  have hmap : (combineModels native_models (buildCriModels profiles)).map
      (fun m => m.modelId) =
      native_models.map (fun m => m.modelId) ++
        ((buildCriModels profiles).filter
          (fun kv =>
            !((native_models.map (fun m => m.modelId)).contains kv.1))).map
          (fun kv => kv.1) := by
    simp [combineModels, synthesize, List.map_map, Function.comp]
  constructor
  · rw [hmap, List.nodup_append]
    refine ⟨h, ?_, ?_⟩
    · have hsub : List.Sublist
          (((buildCriModels profiles).filter
            (fun kv =>
              !((native_models.map (fun m => m.modelId)).contains kv.1))).map
            (fun kv => kv.1))
          ((buildCriModels profiles).map (fun kv => kv.1)) :=
        (List.filter_sublist _).map _
      exact hsub.nodup (buildCriModels_keys_nodup profiles)
    · intro x hx hx2
      rcases List.mem_map.mp hx2 with ⟨kv, hkv, rfl⟩
      have hpred := (List.mem_filter.mp hkv).2
      simp only [Bool.not_eq_true'] at hpred
      exact (contains_false_iff _ _).mp hpred hx
  · intro m hm hnot
    rw [combineModels] at hm
    rcases List.mem_append.mp hm with h1 | h1
    · exact absurd h1 hnot
    · rcases List.mem_map.mp h1 with ⟨kv, hkv, rfl⟩
      have hpred := (List.mem_filter.mp hkv).2
      simp only [Bool.not_eq_true'] at hpred
      simpa [synthesize] using (contains_false_iff _ _).mp hpred

/-- Witness for C1 (amended) at concrete inputs: one native model and one
CRI-only profile give two distinct ids. -/
theorem C1_witness :
    ((combineModels [⟨"a.foo".toList, "A".toList, [], []⟩]
        (buildCriModels [⟨"us.b.bar".toList⟩])).map
      (fun m => m.modelId)).Nodup :=
  (C1_unique_ids_amended [⟨"a.foo".toList, "A".toList, [], []⟩]
    [⟨"us.b.bar".toList⟩] (by decide)).1

/-- Counterexample to C1 as stated: when the native list itself repeats a
`modelId`, the combined (and rendered) list repeats it too, so the
invariant does not hold for every native model list. -/
theorem C1_counterexample :
    ¬ ((combineModels
        [⟨"a.foo".toList, "A".toList, [], []⟩,
         ⟨"a.foo".toList, "A".toList, [], []⟩]
        (buildCriModels [])).map (fun m => m.modelId)).Nodup := by decide

/-- C2: the combined list is the native list followed by, for each CRI
key absent from the native-id set, a synthesized entry whose provider is
the first dot-segment of the id title-cased and whose modality lists are
empty; on the spec's example the combined list is exactly `a.foo`
(CRI `"-"`) followed by the synthesized `b.bar` (CRI `"US"`,
provider `"B"`). -/
theorem C2_combined_list :
    (∀ (native_models : List ModelSummary) (cri_models : List (Str × Str)),
      combineModels native_models cri_models =
        native_models ++
          (cri_models.filter
            (fun kv =>
              !((native_models.map (fun m => m.modelId)).contains kv.1))).map
            (fun kv =>
              { modelId := kv.1,
                providerName := pyTitle ((pySplit '.' kv.1).headD []),
                inputModalities := [], outputModalities := [] })) ∧
    (∀ (native_models : List ModelSummary) (cri_models : List (Str × Str))
        (m : ModelSummary),
      m ∈ combineModels native_models cri_models ↔
        (m ∈ native_models ∨
          ∃ kv ∈ cri_models,
            kv.1 ∉ native_models.map (fun m' => m'.modelId) ∧
            m = { modelId := kv.1,
                  providerName := pyTitle ((pySplit '.' kv.1).headD []),
                  inputModalities := [], outputModalities := [] })) ∧
    combineModels [⟨"a.foo".toList, "A".toList, [], []⟩]
        (buildCriModels [⟨"us.b.bar".toList⟩]) =
      [⟨"a.foo".toList, "A".toList, [], []⟩,
       ⟨"b.bar".toList, "B".toList, [], []⟩] ∧
    dictGetD (buildCriModels [⟨"us.b.bar".toList⟩]) "a.foo".toList "-".toList =
      "-".toList ∧
    dictGetD (buildCriModels [⟨"us.b.bar".toList⟩]) "b.bar".toList "-".toList =
      "US".toList := by
  refine ⟨fun native_models cri_models => rfl, ?_, by decide, by decide, by decide⟩
  intro native_models cri_models m
  rw [combineModels, List.mem_append]
  constructor
  · intro hm
    rcases hm with hm | hm
    · exact Or.inl hm
    · rcases List.mem_map.mp hm with ⟨kv, hkv, rfl⟩
      rcases List.mem_filter.mp hkv with ⟨hmem, hpred⟩
      simp only [Bool.not_eq_true'] at hpred
      refine Or.inr ⟨kv, hmem, ?_, by rw [synthesize]⟩
      exact (contains_false_iff (native_models.map (fun m' => m'.modelId)) kv.1).mp hpred
  · intro hm
    rcases hm with hm | ⟨kv, hmem, hnot, rfl⟩
    · exact Or.inl hm
    · refine Or.inr (List.mem_map.mpr ⟨kv, List.mem_filter.mpr ⟨hmem, ?_⟩, by rw [synthesize]⟩)
      simp only [Bool.not_eq_true']
      cases hc : (native_models.map (fun m' => m'.modelId)).contains kv.1
      · rfl
      · exact absurd ((mem_iff_contains _ _).mp hc) hnot

/-! Helper lemmas for the sort comparison and the stable sort. -/

theorem char_toNat_inj {a b : Char} (h : a.toNat = b.toNat) : a = b :=
  Char.eq_of_val_eq (UInt32.toNat.inj h)

theorem strLe_total : ∀ a b : Str, (strLe a b || strLe b a) = true
  | [], _ => by simp [strLe]
  | _ :: _, [] => by simp [strLe]
  | a :: as, b :: bs => by
    by_cases heq : a.toNat = b.toNat
    · have h2 : b.toNat = a.toNat := heq.symm
      simp only [strLe, if_pos heq, if_pos h2]
      exact strLe_total as bs
    · have h2 : ¬ b.toNat = a.toNat := fun hh => heq hh.symm
      simp only [strLe, if_neg heq, if_neg h2, Bool.or_eq_true, decide_eq_true_eq]
      omega

theorem strLe_trans : ∀ a b c : Str, strLe a b = true → strLe b c = true →
    strLe a c = true
  | [], _, _, _, _ => by simp [strLe]
  | _ :: _, [], _, h1, _ => by simp [strLe] at h1
  | _ :: _, _ :: _, [], _, h2 => by simp [strLe] at h2
  | a :: as, b :: bs, c :: cs, h1, h2 => by
    by_cases hab : a.toNat = b.toNat <;> by_cases hbc : b.toNat = c.toNat
    · have hac : a.toNat = c.toNat := by omega
      simp only [strLe, if_pos hab] at h1
      simp only [strLe, if_pos hbc] at h2
      simp only [strLe, if_pos hac]
      exact strLe_trans as bs cs h1 h2
    · simp only [strLe, if_neg hbc, decide_eq_true_eq] at h2
      have hac : ¬ a.toNat = c.toNat := by omega
      simp only [strLe, if_neg hac, decide_eq_true_eq]
      omega
    · simp only [strLe, if_neg hab, decide_eq_true_eq] at h1
      have hac : ¬ a.toNat = c.toNat := by omega
      simp only [strLe, if_neg hac, decide_eq_true_eq]
      omega
    · simp only [strLe, if_neg hab, decide_eq_true_eq] at h1
      simp only [strLe, if_neg hbc, decide_eq_true_eq] at h2
      have hac : ¬ a.toNat = c.toNat := by omega
      simp only [strLe, if_neg hac, decide_eq_true_eq]
      omega

theorem strLe_antisymm : ∀ a b : Str, strLe a b = true → strLe b a = true → a = b
  | [], [], _, _ => rfl
  | [], _ :: _, _, h2 => by simp [strLe] at h2
  | _ :: _, [], h1, _ => by simp [strLe] at h1
  | a :: as, b :: bs, h1, h2 => by
    by_cases hab : a.toNat = b.toNat
    · have hba : b.toNat = a.toNat := hab.symm
      simp only [strLe, if_pos hab] at h1
      simp only [strLe, if_pos hba] at h2
      rw [char_toNat_inj hab, strLe_antisymm as bs h1 h2]
    · have hba : ¬ b.toNat = a.toNat := fun hh => hab hh.symm
      simp only [strLe, if_neg hab, decide_eq_true_eq] at h1
      simp only [strLe, if_neg hba, decide_eq_true_eq] at h2
      omega

theorem keyLe_total (m1 m2 : ModelSummary) : (keyLe m1 m2 || keyLe m2 m1) = true := by
  rw [keyLe, keyLe]
  by_cases hp : m1.providerName = m2.providerName
  · rw [if_pos hp, if_pos hp.symm]
    exact strLe_total ..
  · rw [if_neg hp, if_neg (fun hh => hp hh.symm)]
    exact strLe_total ..

theorem keyLe_trans (m1 m2 m3 : ModelSummary) (h1 : keyLe m1 m2 = true)
    (h2 : keyLe m2 m3 = true) : keyLe m1 m3 = true := by
  rw [keyLe] at h1 h2 ⊢
  by_cases h12 : m1.providerName = m2.providerName <;>
    by_cases h23 : m2.providerName = m3.providerName
  · rw [if_pos h12] at h1
    rw [if_pos h23] at h2
    rw [if_pos (h12.trans h23)]
    exact strLe_trans _ _ _ h1 h2
  · rw [if_pos h12] at h1
    rw [if_neg h23] at h2
    have h13 : ¬ m1.providerName = m3.providerName := by
      rw [h12]
      exact h23
    rw [if_neg h13, h12]
    exact h2
  · rw [if_neg h12] at h1
    rw [if_pos h23] at h2
    have h13 : ¬ m1.providerName = m3.providerName := by
      rw [← h23]
      exact h12
    rw [if_neg h13, ← h23]
    exact h1
  · by_cases h13 : m1.providerName = m3.providerName
    · exfalso
      rw [if_neg h12] at h1
      rw [if_neg h23] at h2
      rw [h13] at h1
      exact h23 (strLe_antisymm _ _ h2 h1)
    · rw [if_neg h12] at h1
      rw [if_neg h23] at h2
      rw [if_neg h13]
      exact strLe_trans _ _ _ h1 h2

theorem mem_insertSorted (le : α → α → Bool) (a x : α) :
    ∀ l : List α, x ∈ insertSorted le a l ↔ x = a ∨ x ∈ l
  | [] => by simp [insertSorted]
  | b :: bs => by
    rw [insertSorted]
    split
    · simp only [List.mem_cons]
    · rw [List.mem_cons, mem_insertSorted le a x bs, List.mem_cons]
      tauto

theorem pairwise_insertSorted (le : α → α → Bool)
    (total : ∀ a b, (le a b || le b a) = true)
    (trans : ∀ a b c, le a b = true → le b c = true → le a c = true)
    (a : α) : ∀ l : List α, l.Pairwise (fun x y => le x y = true) →
    (insertSorted le a l).Pairwise (fun x y => le x y = true)
  | [], _ => by simp [insertSorted]
  | b :: bs, h => by
    rw [insertSorted]
    rcases List.pairwise_cons.mp h with ⟨hb, hbs⟩
    cases hab : le a b
    · have hba : le b a = true := by
        have htot := total a b
        rw [hab] at htot
        simpa using htot
      rw [if_neg Bool.false_ne_true]
      refine List.pairwise_cons.mpr
        ⟨?_, pairwise_insertSorted le total trans a bs hbs⟩
      intro x hx
      rcases (mem_insertSorted le a x bs).mp hx with rfl | hx2
      · exact hba
      · exact hb x hx2
    · rw [if_pos rfl]
      refine List.pairwise_cons.mpr ⟨?_, h⟩
      intro x hx
      rcases List.mem_cons.mp hx with rfl | hx2
      · exact hab
      · exact trans a b x hab (hb x hx2)

theorem pairwise_insertionSort (le : α → α → Bool)
    (total : ∀ a b, (le a b || le b a) = true)
    (trans : ∀ a b c, le a b = true → le b c = true → le a c = true) :
    ∀ l : List α, (insertionSort le l).Pairwise (fun x y => le x y = true)
  | [] => by simp [insertionSort]
  | a :: as => by
    rw [insertionSort]
    exact pairwise_insertSorted le total trans a _
      (pairwise_insertionSort le total trans as)

/-- C7: the rendered rows are sorted ascending by the pair
`(providerName, modelId)` under case-sensitive (code-point) lexicographic
order with the provider as primary key; on the spec's example with
providers `Z, A, A` and ids `z1, a2, a1`, the sorted row order is
`a1, a2, z1`. -/
theorem C7_rows_sorted :
    (∀ models : List ModelSummary,
      (sortModels models).Pairwise (fun m1 m2 => keyLe m1 m2 = true)) ∧
    ((sortModels
        [⟨"z1".toList, "Z".toList, [], []⟩,
         ⟨"a2".toList, "A".toList, [], []⟩,
         ⟨"a1".toList, "A".toList, [], []⟩]).map (fun m => m.modelId) =
      ["a1".toList, "a2".toList, "z1".toList]) :=
  ⟨fun models => pairwise_insertionSort keyLe keyLe_total keyLe_trans models,
   by decide⟩

/-! Helper lemmas about the main operation's outputs. -/

theorem combineModels_nil_cri (native_models : List ModelSummary) :
    combineModels native_models [] = native_models := by
  simp [combineModels]

theorem emptyCheckAndRender_exit (region title : Str) (models : List ModelSummary)
    (cri_models : List (Str × Str)) :
    (emptyCheckAndRender region title models cri_models).exitCode = 0 ∧
    (emptyCheckAndRender region title models cri_models).stderr = [] := by
  rw [emptyCheckAndRender]
  split
  · exact ⟨rfl, rfl⟩
  · exact ⟨rfl, rfl⟩

theorem ok_call_exit (region : Str) (flag : Bool) (native_models : List ModelSummary)
    (pc : Except Str (List InferenceProfileSummary)) :
    (list_bedrock_models region flag (.ok native_models) pc).exitCode = 0 ∧
    (list_bedrock_models region flag (.ok native_models) pc).stderr = [] := by
  rcases pc with e | profiles <;>
    (rw [list_bedrock_models]
     split
     · dsimp only
       split
       · exact ⟨rfl, rfl⟩
       · exact emptyCheckAndRender_exit ..
     · exact emptyCheckAndRender_exit ..)

theorem renderTable_stdout_ne_singleton (title : Str) (models : List ModelSummary)
    (cri_models : List (Str × Str)) (x : Str) :
    (renderTable title models cri_models).stdout ≠ [x] := by
  intro h
  have hl := congrArg List.length h
  simp [renderTable] at hl

theorem noCriLine_ne_noModelsLine (region : Str) :
    noCriLine region ≠ noModelsLine region := by
  intro h
  have hl := congrArg List.length h
  rw [noCriLine, noModelsLine] at hl
  simp only [List.length_append] at hl
  have l1 : ("No models with Cross-Region Inference available in region: ".toList).length
      = 59 := by decide
  have l2 : ("No models found in region: ".toList).length = 27 := by decide
  rw [l1, l2] at hl
  omega

/-- C4 (amended): a failure of the primary listing call yields exit code 1
with the single stderr line `Error listing models: <message>`; a primary
success always yields exit code 0 and an empty stderr, whatever the
profile call did; and when additionally the flag is unset and the native
list is non-empty, a profile-call failure still produces the full table,
rendered against the empty CRI mapping, whose lookup yields `"-"` for
every id. -/
theorem C4_error_paths_amended :
    (∀ (region e : Str) (flag : Bool)
        (pc : Except Str (List InferenceProfileSummary)),
      list_bedrock_models region flag (.error e) pc =
        { stdout := [], stderr := [errorLine e], exitCode := 1 }) ∧
    (∀ (region : Str) (flag : Bool) (native_models : List ModelSummary)
        (pc : Except Str (List InferenceProfileSummary)),
      (list_bedrock_models region flag (.ok native_models) pc).exitCode = 0 ∧
      (list_bedrock_models region flag (.ok native_models) pc).stderr = []) ∧
    (∀ (region e : Str) (native_models : List ModelSummary), native_models ≠ [] →
      list_bedrock_models region false (.ok native_models) (.error e) =
        renderTable (fmTitle region) native_models []) ∧
    (∀ mid : Str, dictGetD [] mid "-".toList = "-".toList) := by
  refine ⟨fun region e flag pc => rfl, ok_call_exit, ?_, fun mid => rfl⟩
  intro region e native_models hne
  have h1 : native_models.isEmpty = false := by
    cases native_models
    · exact absurd rfl hne
    · rfl
  simp [list_bedrock_models, combineModels_nil_cri, emptyCheckAndRender, h1]

/-- Witness for C4 (amended): with one native model, an unset flag, and a
failing profile call, the output is the full table with empty CRI
mapping; and a failing primary call exits with code 1. -/
theorem C4_witness :
    list_bedrock_models "us-west-2".toList false
        (.ok [⟨"a.foo".toList, "A".toList, [], []⟩]) (.error "boom".toList) =
      renderTable (fmTitle "us-west-2".toList)
        [⟨"a.foo".toList, "A".toList, [], []⟩] [] ∧
    (list_bedrock_models "us-west-2".toList true
        (.error "boom".toList) (.ok [])).exitCode = 1 :=
  ⟨C4_error_paths_amended.2.2.1 "us-west-2".toList "boom".toList
      [⟨"a.foo".toList, "A".toList, [], []⟩] (by decide),
   by rw [C4_error_paths_amended.1 "us-west-2".toList "boom".toList true (.ok [])]⟩

/-- Counterexample to C4 as stated: with an empty native catalog and a
failing profile call, the operation prints the no-models message, not the
full table, so the claim's "produces the full table" clause fails without
the non-empty-catalog proviso. -/
theorem C4_counterexample :
    (list_bedrock_models "us-west-2".toList false (.ok [])
        (.error "boom".toList)).stdout = [noModelsLine "us-west-2".toList] ∧
    (list_bedrock_models "us-west-2".toList false (.ok [])
        (.error "boom".toList)).stdout ≠
      (renderTable (fmTitle "us-west-2".toList) [] []).stdout := by decide

/-- C8: with the cross-region-only flag set, whenever the combined list
filtered to CRI-mapped ids is empty — in particular whenever the CRI
mapping itself is empty — the operation prints exactly the
no-cross-region-models message and returns with exit code 0 and no
table. -/
theorem C8_cross_region_empty :
    (∀ (region : Str) (native_models : List ModelSummary)
        (profiles : List InferenceProfileSummary),
      (combineModels native_models (buildCriModels profiles)).filter
          (fun m => dictContains (buildCriModels profiles) m.modelId) = [] →
        list_bedrock_models region true (.ok native_models) (.ok profiles) =
          { stdout := [noCriLine region], stderr := [], exitCode := 0 }) ∧
    (∀ (region : Str) (native_models : List ModelSummary)
        (profiles : List InferenceProfileSummary),
      buildCriModels profiles = [] →
        list_bedrock_models region true (.ok native_models) (.ok profiles) =
          { stdout := [noCriLine region], stderr := [], exitCode := 0 }) := by
  have main : ∀ (region : Str) (native_models : List ModelSummary)
      (profiles : List InferenceProfileSummary),
      (combineModels native_models (buildCriModels profiles)).filter
          (fun m => dictContains (buildCriModels profiles) m.modelId) = [] →
        list_bedrock_models region true (.ok native_models) (.ok profiles) =
          { stdout := [noCriLine region], stderr := [], exitCode := 0 } := by
    intro region native_models profiles hfilter
    simp [list_bedrock_models, hfilter]
  refine ⟨main, fun region native_models profiles hcri => main _ _ _ ?_⟩
  rw [hcri]
  simp [dictContains]

/-- Witness for C8: a non-empty native catalog with no inference profiles
produces exactly the no-cross-region-models message. -/
theorem C8_witness :
    list_bedrock_models "us-west-2".toList true
        (.ok [⟨"a.foo".toList, "A".toList, [], []⟩]) (.ok []) =
      { stdout := [noCriLine "us-west-2".toList], stderr := [], exitCode := 0 } :=
  C8_cross_region_empty.2 "us-west-2".toList
    [⟨"a.foo".toList, "A".toList, [], []⟩] [] (by decide)

/-- C9: the no-models message is printed (as the whole standard output)
only in the non-filtered branch and only when the native catalog is
empty; conversely, with an empty native catalog and an empty CRI mapping
the operation prints exactly that message and returns with exit code 0
and no table. -/
theorem C9_no_models_found :
    (∀ (region : Str) (flag : Bool) (native_models : List ModelSummary)
        (profiles : List InferenceProfileSummary),
      (list_bedrock_models region flag (.ok native_models) (.ok profiles)).stdout =
          [noModelsLine region] →
        flag = false ∧ native_models = []) ∧
    (∀ (region : Str) (profiles : List InferenceProfileSummary),
      buildCriModels profiles = [] →
        list_bedrock_models region false (.ok []) (.ok profiles) =
          { stdout := [noModelsLine region], stderr := [], exitCode := 0 }) := by
  constructor
  · intro region flag native_models profiles h
    cases flag
    · refine ⟨rfl, ?_⟩
      by_cases hemp : (combineModels native_models (buildCriModels profiles)).isEmpty
        = true
      · have hc := List.isEmpty_iff.mp hemp
        rw [combineModels] at hc
        exact (List.append_eq_nil.mp hc).1
      · exfalso
        have hb : (combineModels native_models (buildCriModels profiles)).isEmpty
            = false := by
          cases hx : (combineModels native_models (buildCriModels profiles)).isEmpty
          · rfl
          · exact absurd hx hemp
        simp [list_bedrock_models, emptyCheckAndRender, hb] at h
        exact renderTable_stdout_ne_singleton _ _ _ _ h
    · exfalso
      by_cases hemp : ((combineModels native_models (buildCriModels profiles)).filter
          (fun m => dictContains (buildCriModels profiles) m.modelId)).isEmpty = true
      · simp [list_bedrock_models, hemp] at h
        exact noCriLine_ne_noModelsLine region h
      · have hb : ((combineModels native_models (buildCriModels profiles)).filter
            (fun m => dictContains (buildCriModels profiles) m.modelId)).isEmpty
            = false := by
          cases hx : ((combineModels native_models (buildCriModels profiles)).filter
              (fun m => dictContains (buildCriModels profiles) m.modelId)).isEmpty
          · rfl
          · exact absurd hx hemp
        simp [list_bedrock_models, emptyCheckAndRender, hb] at h
        exact renderTable_stdout_ne_singleton _ _ _ _ h
  · intro region profiles hcri
    simp [list_bedrock_models, hcri, combineModels, emptyCheckAndRender]

/-- Witness for C9: with empty native catalog and no profiles the output
is exactly the no-models message; and on that same input the first part
recovers that the flag was unset and the catalog empty. -/
theorem C9_witness :
    list_bedrock_models "us-west-2".toList false (.ok []) (.ok []) =
      { stdout := [noModelsLine "us-west-2".toList], stderr := [], exitCode := 0 } ∧
    (false = false ∧ ([] : List ModelSummary) = []) :=
  ⟨C9_no_models_found.2 "us-west-2".toList [] (by decide),
   C9_no_models_found.1 "us-west-2".toList false [] [] (by decide)⟩
